import Mathlib

/-!
Verification of the Flexisip push-notification dispatch subsystem and the
conference-address allocation protocol, as a shallow embedding of
`src/pushnotification/service.cc`, `src/conference/conference-address-generator.cc`
and the event-log writer (`AuthLog::setOrigin`).

The client registry `std::map<std::string, std::shared_ptr<Client>>` is embedded
as an association list with unique keys; a registered null `shared_ptr` is a
`none` value at a present key, which is distinct from an absent key (this
distinction matters: `mClients.find(k) != mClients.end()` sees a null entry,
while `find(k) != end && it->second != nullptr` does not).
-/

set_option autoImplicit false

namespace Flexisip

namespace Push

/-- `PushType` (message/call/background), from `push-type.hh`. -/
inductive PushType
  | message
  | call
  | background
deriving DecidableEq

/-- One entry of `PushInfo::mDestinations`: only the provider tag
(`RFC8599PushParams::getParam()`) is consumed by `service.cc`. -/
structure Dest where
  param : String
deriving DecidableEq

/-- The slice of `PushInfo` consumed by `Service::makeRequest`:
`getDestination(pType).getParam()` and `getPNProvider()` (the latter is only
used in the error message). -/
structure PushInfo where
  dest : PushType → Dest
  pnProvider : String

/-- Which concrete `Client` subclass a registry entry holds. -/
inductive ClientKind
  | apple (certPath : String)
  | firebaseLegacy (apiKey : String)
  | firebaseV1 (serviceAccountPath : String)
  | genericHttp
  | genericHttp2
  | other
deriving DecidableEq

/-- A registered push client. The queue and in-flight set reflect the abstract
client contract of the spec (the concrete `Client` subclasses are not part of
the provided sources): a client is idle iff its queue is empty and nothing is
in flight. -/
structure Client where
  name : String
  kind : ClientKind
  queue : List Nat
  inflight : List Nat
deriving DecidableEq

/-- The registry `mClients`. Keys are unique; `none` models a registered null
`shared_ptr` (possible through `setFallbackClient(nullptr)`). -/
abbrev Registry := List (String × Option Client)

/-- `std::map::find`: `some v` when the key is present (`v` may itself be a
null client), `none` when absent. -/
def findEntry : Registry → String → Option (Option Client)
  | [], _ => none
  | (k0, v0) :: rest, k => if k0 = k then some v0 else findEntry rest k

/-- `std::map::operator[] = v`: replace the value at the key if present,
otherwise add the binding. -/
def insertEntry : Registry → String → Option Client → Registry
  | [], k, v => [(k, v)]
  | (k0, v0) :: rest, k, v =>
    if k0 = k then (k0, v) :: rest else (k0, v0) :: insertEntry rest k v

/-- `Service::sGenericClientName`. -/
def sGenericClientName : String := "generic"

/-- `Service::sFallbackClientKey`. -/
def sFallbackClientKey : String := "fallback"

/-- The service state: its client registry. -/
structure Service where
  clients : Registry

/-- Errors thrown by `Service::makeRequest` / `Service::sendPush`. -/
inductive PushError
  | unsupportedProvider (provider : String)
  | noClientAvailable (rid : Nat)
deriving DecidableEq

/-- The value returned by `Service::makeRequest`: a request built by a client.
The generic variant records that the generic client receives the whole
registry (`makeRequest(pType, pInfo, mClients)`). -/
inductive MadeRequest
  | generic (c : Client) (reg : Registry) (pt : PushType) (pi : PushInfo)
  | native (c : Client) (pt : PushType) (pi : PushInfo)

/-- `Service::makeRequest` (service.cc:57-73), step for step: look up
`"generic"` and use it when present and non-null; else look up the provider
tag of the destination for `pType`; else `"fallback"`; else throw. -/
def Service.makeRequest (s : Service) (pt : PushType) (pinfo : PushInfo) :
    Except PushError MadeRequest :=
  match findEntry s.clients sGenericClientName with
  | some (some c) => .ok (.generic c s.clients pt pinfo)
  | _ =>
    match findEntry s.clients ((pinfo.dest pt).param) with
    | some (some c) => .ok (.native c pt pinfo)
    | _ =>
      match findEntry s.clients sFallbackClientKey with
      | some (some c) => .ok (.native c pt pinfo)
      | _ => .error (.unsupportedProvider pinfo.pnProvider)

/-- Lookup of a non-null client registered under a name, the resolution step
used by the specification text: a present key holding a null client counts as
no client. -/
def resolveNonNull (reg : Registry) (k : String) : Option Client :=
  match findEntry reg k with
  | some (some c) => some c
  | _ => none

/-- The resolution order exactly as the claim words it: `"generic"` first,
then the provider tag `pInfo.destination[pType].param`, then `"fallback"`,
else `UnsupportedProvider`. -/
def Service.makeRequestClaim (s : Service) (pt : PushType) (pinfo : PushInfo) :
    Except PushError MadeRequest :=
  match resolveNonNull s.clients "generic" with
  | some c => .ok (.generic c s.clients pt pinfo)
  | none =>
    match resolveNonNull s.clients ((pinfo.dest pt).param) with
    | some c => .ok (.native c pt pinfo)
    | none =>
      match resolveNonNull s.clients "fallback" with
      | some c => .ok (.native c pt pinfo)
      | none => .error (.unsupportedProvider pinfo.pnProvider)

/-- A `Request` as consumed by `Service::sendPush`: its `getAppIdentifier()`
and an identity for queue bookkeeping. -/
structure Request where
  appIdentifier : String
  rid : Nat
deriving DecidableEq

/-- Client-level `sendPush`, modelled from the spec client contract (the
`Client` subclasses are not part of the provided sources): enqueue the request
and return without waiting for completion. -/
def Client.push (c : Client) (rid : Nat) : Client :=
  { c with queue := c.queue ++ [rid] }

/-- `Service::sendPush` (service.cc:75-88): resolve the client under
`pn->getAppIdentifier()`, fall back to the `"fallback"` entry when it is
absent or null, throw when neither resolves, otherwise hand the request to
the resolved client. Returns the name of the client that received the
request and the updated service. -/
def Service.sendPush (s : Service) (pn : Request) :
    Except PushError (String × Service) :=
  let first :=
    match findEntry s.clients pn.appIdentifier with
    | some (some c) => some (pn.appIdentifier, c)
    | _ => none
  let resolved :=
    match first with
    | none =>
      match findEntry s.clients sFallbackClientKey with
      | some (some c) => some (sFallbackClientKey, c)
      | _ => none
    | x => x
  match resolved with
  | none => .error (.noClientAvailable pn.rid)
  | some (k, c) => .ok (k, ⟨insertEntry s.clients k (some (c.push pn.rid))⟩)

/-- `sendPush` exactly as the claim words it: route to the client named
`pn.appIdentifier`; when no non-null client is registered under that name, to
the `"fallback"` client; when neither exists, fail with `NoClientAvailable`
without enqueueing anywhere; when a client is found, only enqueue. -/
def Service.sendPushClaim (s : Service) (pn : Request) :
    Except PushError (String × Service) :=
  match resolveNonNull s.clients pn.appIdentifier with
  | some c =>
    .ok (pn.appIdentifier, ⟨insertEntry s.clients pn.appIdentifier (some (c.push pn.rid))⟩)
  | none =>
    match resolveNonNull s.clients "fallback" with
    | some c =>
      .ok ("fallback", ⟨insertEntry s.clients "fallback" (some (c.push pn.rid))⟩)
    | none => .error (.noClientAvailable pn.rid)

/-- `Client::isIdle` per the spec contract: empty queue and nothing in
flight. -/
def Client.isIdle (c : Client) : Bool :=
  c.queue.isEmpty && c.inflight.isEmpty

/-- `kv.second->isIdle()` for a registry value. Dereferencing a registered
null client is undefined behaviour in the source; the `none` case below is
unreachable under the non-null hypothesis of the theorem about `isIdle`. -/
def derefIsIdle : Option Client → Bool
  | some c => c.isIdle
  | none => false

/-- `Service::isIdle` (service.cc:90-92): `std::all_of` over the registry. -/
def Service.isIdle (s : Service) : Bool :=
  s.clients.all fun kv => derefIsIdle kv.2

/-- Split a character list at the first colon: the characters before it and
the characters after it, or `none` when there is no colon. -/
def breakAtColon : List Char → Option (List Char × List Char)
  | [] => none
  | ch :: rest =>
    if ch = ':' then some ([], rest)
    else
      match breakAtColon rest with
      | none => none
      | some (pre, post) => some (ch :: pre, post)

/-- `keyval.substr(0, keyval.find(":"))` and `keyval.substr(sep + 1)`.
When no colon is present, `find` returns `npos` and `sep + 1` wraps to `0`,
so both halves are the whole string. -/
def parseKeyVal (s : String) : String × String :=
  match breakAtColon s.data with
  | some (pre, post) => (⟨pre⟩, ⟨post⟩)
  | none => (s, s)

/-- The only error `Service::setupFirebaseClients` throws. -/
inductive SetupError
  | duplicateAppId (appId : String)
deriving DecidableEq

/-- `Service::addFirebaseClient` (service.cc:180-183): register a legacy
Firebase client under the app id. -/
def Service.addFirebaseClient (s : Service) (appId apiKey : String) : Service :=
  ⟨insertEntry s.clients appId (some ⟨appId, .firebaseLegacy apiKey, [], []⟩)⟩

/-- `Service::addFirebaseV1Client` (service.cc:185-197): register a Firebase
v1 client under the app id. -/
def Service.addFirebaseV1Client (s : Service) (appId path : String) : Service :=
  ⟨insertEntry s.clients appId (some ⟨appId, .firebaseV1 path, [], []⟩)⟩

/-- First loop of `Service::setupFirebaseClients` (service.cc:153-156):
add a legacy client for every `appId:apiKey` pair. -/
def setupLegacyLoop : Service → List String → Service
  | s, [] => s
  | s, kv :: rest =>
    setupLegacyLoop (s.addFirebaseClient (parseKeyVal kv).1 (parseKeyVal kv).2) rest

/-- Second loop of `Service::setupFirebaseClients` (service.cc:164-177):
for every `appId:filePath` pair, throw `DuplicateAppId` if *any* entry is
already registered under the app id (`mClients.find(appId) != mClients.end()`),
else add a v1 client. A throw stops the loop with the registry as mutated so
far. -/
def setupV1Loop : Service → List String → Service × Option SetupError
  | s, [] => (s, none)
  | s, kv :: rest =>
    if (findEntry s.clients (parseKeyVal kv).1).isSome then
      (s, some (.duplicateAppId (parseKeyVal kv).1))
    else
      setupV1Loop (s.addFirebaseV1Client (parseKeyVal kv).1 (parseKeyVal kv).2) rest

/-- `Service::setupFirebaseClients` (service.cc:147-178): legacy clients
first, then v1 clients with the duplicate check. The second component is the
thrown error, if any; the first component is the registry state after the
call (C++ exceptions do not roll back `mClients`). -/
def Service.setupFirebaseClients (s : Service)
    (firebaseKeys firebaseServiceAccounts : List String) : Service × Option SetupError :=
  setupV1Loop (setupLegacyLoop s firebaseKeys) firebaseServiceAccounts

/-- `cert.compare(cert.length() - suffix.length(), suffix.length(), ".pem") == 0`. -/
def endsWithPem (e : String) : Bool :=
  e.data.drop (e.data.length - 4) == [Char.ofNat 46, Char.ofNat 112, Char.ofNat 101, Char.ofNat 109]

/-- The directory-entry filter of `Service::setupiOSClient`
(service.cc:128-134): skip `"."`, `".."`, names of length at most 4 (the
length of `".pem"`), and names not ending in `".pem"`. -/
def eligibleCert (e : String) : Bool :=
  !(e == "." || e == ".." || decide (e.data.length ≤ 4) || !(endsWithPem e))

/-- `cert.substr(0, cert.size() - 4)`: the registry key for a certificate
file. -/
def certStem (e : String) : String := ⟨e.data.take (e.data.length - 4)⟩

/-- The loop of `Service::setupiOSClient` (service.cc:119-143) over the
directory entries (the directory is an external collaborator; its entries are
the input list). `mk` models the outcome of
`make_unique<AppleClient>(*mRoot, cafile, certpath, certName, this)` for a
given key — `none` when the constructor throws `TlsConnection::CreationError`
(the `AppleClient` sources are not provided): that entry is logged and
skipped, and the loop continues with the remaining entries. -/
def setupiOSLoop (mk : String → Option Client) : Service → List String → Service
  | s, [] => s
  | s, e :: rest =>
    if eligibleCert e then
      match mk (certStem e) with
      | some c => setupiOSLoop mk ⟨insertEntry s.clients (certStem e) (some c)⟩ rest
      | none => setupiOSLoop mk s rest
    else setupiOSLoop mk s rest

/-- `Service::setupiOSClient` (service.cc:108-145). -/
def Service.setupiOSClient (s : Service) (dirEntries : List String)
    (mk : String → Option Client) : Service :=
  setupiOSLoop mk s dirEntries

/-- A TLS construction oracle that always succeeds. -/
def mkAlwaysOk (n : String) : Option Client := some ⟨n, .apple "ca", [], []⟩

/-- A TLS construction oracle failing exactly for the key `"bad"`. -/
def mkFailsBad (n : String) : Option Client :=
  if n = "bad" then none else some ⟨n, .apple "ca", [], []⟩

/-- A service with an empty registry. -/
def emptyService : Service := ⟨[]⟩

/-- A concrete idle service used to witness the `isIdle` theorem. -/
def idleServiceW : Service :=
  ⟨[("app1", some ⟨"app1", .apple "cert", [], []⟩),
    ("fallback", some ⟨"fallback", .other, [], []⟩)]⟩

/-- A service already holding an iOS (Apple) client under `"app1"`, used to
witness that the Firebase duplicate check fires against non-Firebase
entries. -/
def appleServiceW : Service := ⟨[("app1", some ⟨"app1", .apple "crt", [], []⟩)]⟩

end Push

end Flexisip

namespace Flexisip

namespace Conf

/-- Modelled from the spec: the fixed chat-room user-part marker
`conference::CHATROOM_PREFIX` (the header `conference/chatroom-prefix.hh` is
not among the provided sources; the spec only states that the user part
carries a fixed leading string). Its concrete value is irrelevant to the
claims below. -/
def chatroomMarker : String := "chatroom-"

/-- The user part written by `ConferenceAddressGenerator::changeAddress`
(conference-address-generator.cc:45-52): the fixed marker followed by the
token produced by `belle_sip_random_token(token, sizeof(token))` into the
17-byte buffer `char token[17]` — per the external belle-sip contract a
NUL-terminated random token of exactly `sizeof(token) - 1 = 16`
characters. -/
def changeAddressUser (token : String) : String := chatroomMarker ++ token

/-- A hexadecimal digit (0-9, a-f). -/
def hexDigit (n : Nat) : Char :=
  if n < 10 then Char.ofNat (48 + n) else Char.ofNat (87 + n)

/-- A 128-bit value rendered as hexadecimal: 32 hex digits, most significant
first. -/
def hex128 (n : Nat) : String :=
  ⟨(List.range 32).map fun i => hexDigit (n / 16 ^ (31 - i) % 16)⟩

/-- The user part as the claim describes it: the fixed marker followed by a
random token of 128 bits rendered as hexadecimal. -/
def claimedUser (n : Nat) : String := chatroomMarker ++ hex128 n

/-- A concrete 16-character token, as `changeAddress` obtains from
belle-sip. -/
def tokenW : String := "abcd0123efgh4567"

/-- `ConferenceAddressGenerator::State` (`mState`). -/
inductive AllocState
  | fetching
  | binding
deriving DecidableEq

/-- An extended contact of a registrar record; only its public GRUU (as
returned by `Record::getPubGruu`, `none` for a null `url_t*`) is
consumed. -/
structure ExtendedContact where
  pubGruu : Option String
deriving DecidableEq

/-- A registrar record: its extended contacts, oldest first.
`Record::isEmpty` and `getExtendedContacts().empty()` test emptiness of this
list; `latest()` (record.hh is not among the provided sources) is modelled
from the spec as the most recently updated — the last — contact. -/
structure Record where
  contacts : List ExtendedContact
deriving DecidableEq

def Record.isEmpty (r : Record) : Bool := r.contacts.isEmpty

def Record.latest (r : Record) : Option ExtendedContact := r.contacts.getLast?

/-- The generator state: `mState` and the user part of `mConferenceAddr`. -/
structure Generator where
  state : AllocState
  username : String
deriving DecidableEq

/-- The observable actions of the generator: a registrar fetch (`run()`), a
`ConferenceServer::bindChatRoom` call, and
`mChatRoom->setConferenceAddress(...)` (`none` for `nullptr`). -/
inductive GenAction
  | fetch
  | bindChatRoom
  | setConferenceAddress (gruu : Option String)
deriving DecidableEq

/-- `r && !r->isEmpty()` (conference-address-generator.cc:56). -/
def recordNonEmpty : Option Record → Bool
  | some rc => !rc.isEmpty
  | none => false

/-- `ConferenceAddressGenerator::onRecordFound`
(conference-address-generator.cc:54-83). `tok` is the random token that
`changeAddress` draws on a collision. Returns `none` when the source would
dereference a null record (possible only in the Binding phase, whose callback
carries the record created by the own binding). -/
def onRecordFound (g : Generator) (tok : String) (r : Option Record) :
    Option (Generator × List GenAction) :=
  match g.state with
  | .fetching =>
    if recordNonEmpty r then
      some ({ g with username := changeAddressUser tok }, [.fetch])
    else
      some ({ g with state := .binding }, [.bindChatRoom])
  | .binding =>
    match r with
    | none => none
    | some record =>
      if record.contacts.isEmpty then
        some (g, [])
      else
        match record.latest with
        | none => some (g, [])
        | some ec =>
          match ec.pubGruu with
          | none => some (g, [])
          | some gruu => some (g, [.setConferenceAddress (some gruu)])

/-- `ConferenceAddressGenerator::onError`
(conference-address-generator.cc:85-87): nullify the chat room's conference
address, in whichever phase. -/
def onError (g : Generator) : Generator × List GenAction :=
  (g, [.setConferenceAddress none])

/-- A non-empty registrar record used in witnesses. -/
def recW : Record := ⟨[⟨none⟩]⟩

end Conf

namespace Logs

/-- The fields of `sip_via_t` consumed by `AuthLog::setOrigin`; `Option`
models a NULL pointer. -/
structure Via where
  v_protocol : String
  v_rport : Option String
  v_port : Option String
  v_received : Option String
  v_host : String

/-- Characters strictly after the first slash, or `none` when there is no
slash. -/
def breakAtSlash : List Char → Option (List Char)
  | [] => none
  | ch :: rest => if ch = '/' then some rest else breakAtSlash rest

/-- `strchr(s, c) + 1` for the slash character: the substring strictly after
the first slash; `none` when absent (the source would then compute an
out-of-bounds pointer). -/
def afterSlash (s : String) : Option String :=
  match breakAtSlash s.data with
  | some rest => some ⟨rest⟩
  | none => none

/-- The origin URI assembled by `AuthLog::setOrigin`: scheme, host, optional
port and optional `transport=` parameter. -/
structure Origin where
  scheme : String
  ip : String
  port : Option String
  transport : Option String
deriving DecidableEq

/-- `strcasecmp(a, b) == 0`: case-insensitive equality. -/
def strcasecmpEq (a b : String) : Bool :=
  a.data.map Char.toUpper == b.data.map Char.toUpper

/-- `AuthLog::setOrigin` (eventlogs source, lines 103-122): extract the
transport token after the second slash of the via protocol (`"SIP/2.0/UDP"`
→ `"UDP"`), prefer rport over port and received over host, and drop the
transport parameter for UDP. The second comparison of the source is the
duplicated `"UDP"` test, kept verbatim. `none` when a slash is missing
(undefined pointer arithmetic in the source). -/
def setOrigin (via : Via) : Option Origin :=
  match afterSlash via.v_protocol with
  | none => none
  | some p1 =>
    match afterSlash p1 with
    | none => none
    | some protocol =>
      let port := match via.v_rport with
        | some rp => some rp
        | none => via.v_port
      let ip := match via.v_received with
        | some rcv => rcv
        | none => via.v_host
      if strcasecmpEq protocol "UDP" then
        some ⟨"sip", ip, port, none⟩
      else if strcasecmpEq protocol "UDP" then
        some ⟨"sips", ip, port, none⟩
      else
        some ⟨"sip", ip, port, some protocol⟩

/-- A via header over TLS, the transport the duplicated comparison was
presumably meant to match. -/
def viaW : Via := ⟨"SIP/2.0/TLS", none, some "5061", none, "host.example.org"⟩

end Logs

end Flexisip

namespace Flexisip

namespace Push

/-- C1: `Service::makeRequest` resolves the client in exactly the claimed
order: a non-null `"generic"` entry wins, else the non-null entry under the
provider tag `pInfo.destination[pType].param`, else the non-null `"fallback"`
entry, else an `UnsupportedProvider` failure. -/
theorem makeRequest_resolution_order (s : Service) (pt : PushType) (pinfo : PushInfo) :
    s.makeRequest pt pinfo = s.makeRequestClaim pt pinfo := by
  unfold Service.makeRequest Service.makeRequestClaim resolveNonNull
  unfold sGenericClientName sFallbackClientKey
  cases hg : findEntry s.clients "generic" with
  | none =>
    cases hp : findEntry s.clients ((pinfo.dest pt).param) with
    | none =>
      cases hf : findEntry s.clients "fallback" with
      | none => simp
      | some vf => cases vf <;> simp
    | some vp =>
      cases vp with
      | none =>
        cases hf : findEntry s.clients "fallback" with
        | none => simp
        | some vf => cases vf <;> simp
      | some c => simp
  | some vg =>
    cases vg with
    | none =>
      cases hp : findEntry s.clients ((pinfo.dest pt).param) with
      | none =>
        cases hf : findEntry s.clients "fallback" with
        | none => simp
        | some vf => cases vf <;> simp
      | some vp =>
        cases vp with
        | none =>
          cases hf : findEntry s.clients "fallback" with
          | none => simp
          | some vf => cases vf <;> simp
        | some c => simp
    | some c => simp

/-- C6: `Service::sendPush` routes exactly as claimed: to the client named
`pn.appIdentifier`, else to `"fallback"`, else it fails with
`NoClientAvailable` without enqueueing anywhere; when a client is found it
only enqueues the request on that client. -/
theorem sendPush_routing (s : Service) (pn : Request) :
    s.sendPush pn = s.sendPushClaim pn := by
  unfold Service.sendPush Service.sendPushClaim resolveNonNull
  unfold sFallbackClientKey
  cases ha : findEntry s.clients pn.appIdentifier with
  | none =>
    cases hf : findEntry s.clients "fallback" with
    | none => simp
    | some vf => cases vf <;> simp
  | some va =>
    cases va with
    | none =>
      cases hf : findEntry s.clients "fallback" with
      | none => simp
      | some vf => cases vf <;> simp
    | some c => simp

/-- C8: provided no registered entry is a null client (dereferencing a null
entry is undefined behaviour in the source), `Service::isIdle` returns `true`
iff every registered client reports idle, iff no registered client has a
queued or in-flight request. -/
theorem isIdle_iff_all_clients_idle (s : Service)
    (h : ∀ kv ∈ s.clients, kv.2 ≠ none) :
    (s.isIdle = true ↔ ∀ kv ∈ s.clients, ∀ c, kv.2 = some c → c.isIdle = true) ∧
    (s.isIdle = true ↔
      ∀ kv ∈ s.clients, ∀ c, kv.2 = some c → c.queue = [] ∧ c.inflight = []) := by
  have key : s.isIdle = true ↔
      ∀ kv ∈ s.clients, ∀ c, kv.2 = some c → c.isIdle = true := by
    unfold Service.isIdle
    rw [List.all_eq_true]
    constructor
    · intro hall kv hkv c hc
      have := hall kv hkv
      rw [hc] at this
      exact this
    · intro hall kv hkv
      cases hv : kv.2 with
      | none => exact absurd hv (h kv hkv)
      | some c => exact hall kv hkv c hv
  refine ⟨key, key.trans ?_⟩
  constructor
  · intro hall kv hkv c hc
    have := hall kv hkv c hc
    unfold Client.isIdle at this
    simp only [Bool.and_eq_true, List.isEmpty_iff] at this
    exact this
  · intro hall kv hkv c hc
    have := hall kv hkv c hc
    unfold Client.isIdle
    simp [this.1, this.2]

/-- Witness for C8 at a concrete two-client registry with no null entry. -/
theorem isIdle_iff_all_clients_idle_w :
    (∀ kv ∈ idleServiceW.clients, kv.2 ≠ none) ∧
    ((idleServiceW.isIdle = true ↔
        ∀ kv ∈ idleServiceW.clients, ∀ c, kv.2 = some c → c.isIdle = true) ∧
      (idleServiceW.isIdle = true ↔
        ∀ kv ∈ idleServiceW.clients, ∀ c, kv.2 = some c →
          c.queue = [] ∧ c.inflight = [])) :=
  ⟨by decide, isIdle_iff_all_clients_idle idleServiceW (by decide)⟩

theorem findEntry_insertEntry_self (reg : Registry) (k : String) (v : Option Client) :
    findEntry (insertEntry reg k v) k = some v := by
  induction reg with
  | nil => simp [insertEntry, findEntry]
  | cons hd tl ih =>
    obtain ⟨k0, v0⟩ := hd
    by_cases hk : k0 = k
    · simp [insertEntry, findEntry, hk]
    · simp [insertEntry, findEntry, hk, ih]

theorem findEntry_insertEntry_ne (reg : Registry) (k k1 : String) (v : Option Client)
    (h : k1 ≠ k) : findEntry (insertEntry reg k v) k1 = findEntry reg k1 := by
  induction reg with
  | nil =>
    simp only [insertEntry, findEntry]
    rw [if_neg fun hh => h hh.symm]
  | cons hd tl ih =>
    obtain ⟨k0, v0⟩ := hd
    by_cases hk : k0 = k
    · subst hk
      simp only [insertEntry, if_pos rfl, findEntry]
      rw [if_neg fun hh => h hh.symm, if_neg fun hh => h hh.symm]
    · simp only [insertEntry, if_neg hk, findEntry]
      by_cases h1 : k0 = k1
      · simp [h1]
      · simp [h1, ih]

theorem findEntry_insertEntry_isSome (reg : Registry) (k a : String) (v : Option Client)
    (h : (findEntry reg a).isSome = true) :
    (findEntry (insertEntry reg k v) a).isSome = true := by
  by_cases hk : a = k
  · subst hk
    rw [findEntry_insertEntry_self]
    rfl
  · rw [findEntry_insertEntry_ne reg k a v hk]
    exact h

theorem setupLegacyLoop_preserves (keys : List String) (s : Service) (a : String)
    (h : (findEntry s.clients a).isSome = true) :
    (findEntry (setupLegacyLoop s keys).clients a).isSome = true := by
  induction keys generalizing s with
  | nil => exact h
  | cons kv rest ih =>
    exact ih _ (findEntry_insertEntry_isSome _ _ _ _ h)

theorem setupLegacyLoop_registers (keys : List String) (s : Service) (kv : String)
    (h : kv ∈ keys) :
    (findEntry (setupLegacyLoop s keys).clients (parseKeyVal kv).1).isSome = true := by
  induction keys generalizing s with
  | nil => cases h
  | cons kv0 rest ih =>
    rcases List.mem_cons.mp h with heq | hmem
    · subst heq
      exact setupLegacyLoop_preserves rest _ _
        (by rw [Service.addFirebaseClient, findEntry_insertEntry_self]; rfl)
    · exact ih _ hmem

theorem setupV1Loop_preserves (accts : List String) (s : Service) (a : String)
    (h : (findEntry s.clients a).isSome = true) :
    (findEntry (setupV1Loop s accts).1.clients a).isSome = true := by
  induction accts generalizing s with
  | nil => exact h
  | cons kv rest ih =>
    by_cases hdup : (findEntry s.clients (parseKeyVal kv).1).isSome = true
    · simp only [setupV1Loop, if_pos hdup]
      exact h
    · simp only [setupV1Loop, if_neg hdup]
      exact ih _ (findEntry_insertEntry_isSome _ _ _ _ h)

theorem setupV1Loop_duplicate_errors (accts : List String) (s : Service)
    (kv a : String) (hmem : kv ∈ accts) (hfst : (parseKeyVal kv).1 = a)
    (h : (findEntry s.clients a).isSome = true) :
    ∃ b, (setupV1Loop s accts).2 = some (SetupError.duplicateAppId b) := by
  induction accts generalizing s with
  | nil => cases hmem
  | cons kv0 rest ih =>
    by_cases hdup : (findEntry s.clients (parseKeyVal kv0).1).isSome = true
    · exact ⟨(parseKeyVal kv0).1, by simp only [setupV1Loop, if_pos hdup]⟩
    · have hne : kv ≠ kv0 := by
        intro heq
        apply hdup
        rw [← heq, hfst]
        exact h
      have hmem1 : kv ∈ rest := by
        rcases List.mem_cons.mp hmem with heq | hm
        · exact absurd heq hne
        · exact hm
      simp only [setupV1Loop, if_neg hdup]
      exact ih _ hmem1 (findEntry_insertEntry_isSome _ _ _ _ h)

/-- C2 (counterexample): with an initially empty registry,
`firebase-projects-api-keys=["app1:k"]` and
`firebase-service-accounts=["app1:/path"]`, the call does fail with
`DuplicateAppId`, but the registry is NOT left empty: the legacy client added
by the first loop for `"app1"` stays registered (exceptions do not roll back
`mClients`). -/
theorem setupFirebaseClients_registry_not_empty_cex :
    (emptyService.setupFirebaseClients ["app1:k"] ["app1:/path"]).2 =
        some (SetupError.duplicateAppId "app1") ∧
    findEntry (emptyService.setupFirebaseClients ["app1:k"] ["app1:/path"]).1.clients
        "app1" = some (some ⟨"app1", ClientKind.firebaseLegacy "k", [], []⟩) := by
  constructor
  · rfl
  · rfl

/-- C2 (amended): a shared `appId` between the two option lists makes
`setupFirebaseClients` fail with `DuplicateAppId`, and the clients registered
before the throw remain: in particular the legacy client for that `appId` is
still registered after the failing call. -/
theorem setupFirebaseClients_duplicate_keeps_earlier_clients
    (s : Service) (keys accts : List String) (appId kv1 kv2 : String)
    (h1 : kv1 ∈ keys) (h1a : (parseKeyVal kv1).1 = appId)
    (h2 : kv2 ∈ accts) (h2a : (parseKeyVal kv2).1 = appId) :
    (∃ b, (s.setupFirebaseClients keys accts).2 = some (SetupError.duplicateAppId b)) ∧
    (findEntry (s.setupFirebaseClients keys accts).1.clients appId).isSome = true := by
  have hp : (findEntry (setupLegacyLoop s keys).clients appId).isSome = true :=
    h1a ▸ setupLegacyLoop_registers keys s kv1 h1
  exact ⟨setupV1Loop_duplicate_errors accts _ kv2 appId h2 h2a hp,
    setupV1Loop_preserves accts _ appId hp⟩

/-- Witness for the amended C2 at the spec's own scenario. -/
theorem setupFirebaseClients_duplicate_keeps_earlier_clients_w :
    ("app1:k" ∈ ["app1:k"] ∧ (parseKeyVal "app1:k").1 = "app1" ∧
      "app1:/path" ∈ ["app1:/path"] ∧ (parseKeyVal "app1:/path").1 = "app1") ∧
    ((∃ b, (emptyService.setupFirebaseClients ["app1:k"] ["app1:/path"]).2 =
        some (SetupError.duplicateAppId b)) ∧
      (findEntry (emptyService.setupFirebaseClients ["app1:k"]
        ["app1:/path"]).1.clients "app1").isSome = true) :=
  ⟨⟨by decide, by decide, by decide, by decide⟩,
    setupFirebaseClients_duplicate_keeps_earlier_clients emptyService
      ["app1:k"] ["app1:/path"] "app1" "app1:k" "app1:/path"
      (by decide) (by decide) (by decide) (by decide)⟩

/-- C10: the duplicate check of `setupFirebaseClients` runs against the whole
registry: if any entry (of any kind) is already registered under an `appId`
that also occurs in `firebase-service-accounts`, the call fails with the
duplicate-appId error. -/
theorem setupFirebaseClients_checks_whole_registry
    (s : Service) (keys accts : List String) (appId kv : String)
    (hreg : (findEntry s.clients appId).isSome = true)
    (hmem : kv ∈ accts) (hkv : (parseKeyVal kv).1 = appId) :
    ∃ b, (s.setupFirebaseClients keys accts).2 = some (SetupError.duplicateAppId b) :=
  setupV1Loop_duplicate_errors accts _ kv appId hmem hkv
    (setupLegacyLoop_preserves keys s appId hreg)

/-- Witness for C10: an iOS (Apple) client registered under `"app1"` makes
`setupFirebaseClients` with service account `"app1:/sa.json"` fail, even
with no legacy Firebase keys at all. -/
theorem setupFirebaseClients_checks_whole_registry_w :
    ((findEntry appleServiceW.clients "app1").isSome = true ∧
      "app1:/sa.json" ∈ ["app1:/sa.json"] ∧
      (parseKeyVal "app1:/sa.json").1 = "app1") ∧
    (∃ b, (appleServiceW.setupFirebaseClients [] ["app1:/sa.json"]).2 =
      some (SetupError.duplicateAppId b)) :=
  ⟨⟨by decide, by decide, by decide⟩,
    setupFirebaseClients_checks_whole_registry appleServiceW [] ["app1:/sa.json"]
      "app1" "app1:/sa.json" (by decide) (by decide) (by decide)⟩

theorem setupiOSLoop_preserves (mk : String → Option Client) (es : List String)
    (s : Service) (k : String) (h : (findEntry s.clients k).isSome = true) :
    (findEntry (setupiOSLoop mk s es).clients k).isSome = true := by
  induction es generalizing s with
  | nil => exact h
  | cons e rest ih =>
    by_cases he : eligibleCert e = true
    · cases hmk : mk (certStem e) with
      | none =>
        simp only [setupiOSLoop, if_pos he, hmk]
        exact ih _ h
      | some c =>
        simp only [setupiOSLoop, if_pos he, hmk]
        exact ih _ (findEntry_insertEntry_isSome _ _ _ _ h)
    · simp only [setupiOSLoop, if_neg he]
      exact ih _ h

theorem setupiOSLoop_registers (mk : String → Option Client) (es : List String)
    (s : Service) (e : String) (hmem : e ∈ es) (he : eligibleCert e = true)
    (hmk : (mk (certStem e)).isSome = true) :
    (findEntry (setupiOSLoop mk s es).clients (certStem e)).isSome = true := by
  induction es generalizing s with
  | nil => cases hmem
  | cons e0 rest ih =>
    rcases List.mem_cons.mp hmem with heq | hm
    · subst heq
      obtain ⟨c, hc⟩ := Option.isSome_iff_exists.mp hmk
      simp only [setupiOSLoop, if_pos he, hc]
      exact setupiOSLoop_preserves mk rest _ _
        (by rw [findEntry_insertEntry_self]; rfl)
    · by_cases he0 : eligibleCert e0 = true
      · cases hmk0 : mk (certStem e0) with
        | none =>
          simp only [setupiOSLoop, if_pos he0, hmk0]
          exact ih _ hm
        | some c =>
          simp only [setupiOSLoop, if_pos he0, hmk0]
          exact ih _ hm
      · simp only [setupiOSLoop, if_neg he0]
        exact ih _ hm

theorem setupiOSLoop_unchanged_without_entry (mk : String → Option Client)
    (es : List String) (s : Service) (k : String)
    (h : ∀ e ∈ es, ¬(eligibleCert e = true ∧ certStem e = k)) :
    findEntry (setupiOSLoop mk s es).clients k = findEntry s.clients k := by
  induction es generalizing s with
  | nil => rfl
  | cons e0 rest ih =>
    have hrest : ∀ e ∈ rest, ¬(eligibleCert e = true ∧ certStem e = k) :=
      fun e hm => h e (List.mem_cons_of_mem _ hm)
    by_cases he0 : eligibleCert e0 = true
    · have hne : certStem e0 ≠ k := fun hk => h e0 (List.mem_cons_self _ _) ⟨he0, hk⟩
      cases hmk0 : mk (certStem e0) with
      | none =>
        simp only [setupiOSLoop, if_pos he0, hmk0]
        exact ih _ hrest
      | some c =>
        simp only [setupiOSLoop, if_pos he0, hmk0]
        rw [ih _ hrest]
        exact findEntry_insertEntry_ne _ _ _ _ fun hk => hne hk.symm
    · simp only [setupiOSLoop, if_neg he0]
      exact ih _ hrest

theorem setupiOSLoop_unchanged_on_mk_none (mk : String → Option Client)
    (es : List String) (s : Service) (k : String) (hmk : mk k = none) :
    findEntry (setupiOSLoop mk s es).clients k = findEntry s.clients k := by
  induction es generalizing s with
  | nil => rfl
  | cons e0 rest ih =>
    by_cases he0 : eligibleCert e0 = true
    · cases hmk0 : mk (certStem e0) with
      | none =>
        simp only [setupiOSLoop, if_pos he0, hmk0]
        exact ih _
      | some c =>
        have hne : certStem e0 ≠ k := by
          intro hk
          rw [hk, hmk] at hmk0
          cases hmk0
        simp only [setupiOSLoop, if_pos he0, hmk0]
        rw [ih _]
        exact findEntry_insertEntry_ne _ _ _ _ fun hk => hne hk.symm
    · simp only [setupiOSLoop, if_neg he0]
      exact ih _

/-- C7 (counterexample): a directory entry named exactly `".pem"` ends in
`".pem"`, yet `setupiOSClient` registers nothing for it — the source skips
names whose length is at most the suffix length — while the claim requires an
AppleClient registered under the filename minus suffix (the empty key). -/
theorem setupiOSClient_dotpem_cex :
    endsWithPem ".pem" = true ∧
    (emptyService.setupiOSClient [".pem"] mkAlwaysOk).clients = [] := by
  constructor
  · decide
  · rfl

/-- C7 (amended): `setupiOSClient` registers one AppleClient per directory
entry whose name is longer than 4 characters and ends in `".pem"` and whose
TLS construction succeeds, keyed by the filename minus the suffix; at keys
with no such entry the registry is unchanged (non-`.pem` entries are
ignored); and a TLS-construction failure only skips its own key, leaving the
registration of the other certificates intact. -/
theorem setupiOSClient_registration (s : Service) (entries : List String)
    (mk : String → Option Client) :
    (∀ e ∈ entries, eligibleCert e = true → (mk (certStem e)).isSome = true →
      (findEntry (s.setupiOSClient entries mk).clients (certStem e)).isSome = true) ∧
    (∀ k, (∀ e ∈ entries, ¬(eligibleCert e = true ∧ certStem e = k)) →
      findEntry (s.setupiOSClient entries mk).clients k = findEntry s.clients k) ∧
    (∀ k, mk k = none →
      findEntry (s.setupiOSClient entries mk).clients k = findEntry s.clients k) :=
  ⟨fun e hm he hmk => setupiOSLoop_registers mk entries s e hm he hmk,
    fun k h => setupiOSLoop_unchanged_without_entry mk entries s k h,
    fun k h => setupiOSLoop_unchanged_on_mk_none mk entries s k h⟩

/-- Witness for the amended C7: with entries `["a.pem", "bad.pem"]` and TLS
construction failing for `"bad"`, the client for `"a"` is registered and the
key `"bad"` stays unregistered. -/
theorem setupiOSClient_registration_w :
    ("a.pem" ∈ ["a.pem", "bad.pem"] ∧ eligibleCert "a.pem" = true ∧
      (mkFailsBad (certStem "a.pem")).isSome = true ∧ mkFailsBad "bad" = none) ∧
    (findEntry (emptyService.setupiOSClient ["a.pem", "bad.pem"]
        mkFailsBad).clients (certStem "a.pem")).isSome = true ∧
    findEntry (emptyService.setupiOSClient ["a.pem", "bad.pem"]
        mkFailsBad).clients "bad" = findEntry emptyService.clients "bad" :=
  ⟨⟨by decide, by decide, by decide, by decide⟩,
    (setupiOSClient_registration emptyService ["a.pem", "bad.pem"] mkFailsBad).1
      "a.pem" (by decide) (by decide) (by decide),
    (setupiOSClient_registration emptyService ["a.pem", "bad.pem"] mkFailsBad).2.2
      "bad" (by decide)⟩

end Push

namespace Conf

theorem hex128_length (n : Nat) : (hex128 n).length = 32 := by
  simp [hex128, String.length]

/-- C3 (counterexample): the user part written by `changeAddress` is the
marker followed by the 16-character belle-sip token; it is never the marker
followed by a 128-bit token rendered as hexadecimal, which has 32 hex
digits — already the lengths differ. -/
theorem changeAddress_not_hex128_cex :
    tokenW.length = 16 ∧ ¬∃ n, changeAddressUser tokenW = claimedUser n := by
  refine ⟨by decide, ?_⟩
  rintro ⟨n, h⟩
  have h1 := congrArg String.length h
  rw [changeAddressUser, claimedUser, String.length_append, String.length_append,
    hex128_length] at h1
  have h2 : tokenW.length = 16 := by decide
  rw [h2] at h1
  omega

/-- C3 (amended): every re-randomisation writes as user part the fixed
chat-room marker followed by the fresh random token of exactly 16 characters
(the `char token[17]` buffer filled by `belle_sip_random_token`), so the user
part has the marker's length plus 16. -/
theorem changeAddress_token16 (token : String) (h : token.length = 16) :
    changeAddressUser token = chatroomMarker ++ token ∧
    (changeAddressUser token).length = chatroomMarker.length + 16 := by
  refine ⟨rfl, ?_⟩
  rw [changeAddressUser, String.length_append, h]

/-- Witness for the amended C3 at a concrete 16-character token. -/
theorem changeAddress_token16_w :
    tokenW.length = 16 ∧
    (changeAddressUser tokenW = chatroomMarker ++ tokenW ∧
      (changeAddressUser tokenW).length = chatroomMarker.length + 16) :=
  ⟨by decide, changeAddress_token16 tokenW (by decide)⟩

/-- C4: in the Fetching state a non-empty record re-randomises the address
and re-enters Fetching (one further fetch, no bind, no publication); the
transition to Binding happens exactly on an empty or null record; and a
`setConferenceAddress` publication can only be emitted from the Binding
state — hence never from a Fetching query that returned non-empty. -/
theorem onRecordFound_fetch_bind_discipline (g : Generator) (tok : String)
    (r : Option Record) :
    (g.state = .fetching → recordNonEmpty r = true →
      onRecordFound g tok r =
        some ({ g with username := changeAddressUser tok }, [.fetch])) ∧
    (g.state = .fetching → recordNonEmpty r = false →
      onRecordFound g tok r =
        some ({ g with state := .binding }, [.bindChatRoom])) ∧
    (∀ g1 acts, onRecordFound g tok r = some (g1, acts) →
      g.state = .fetching → g1.state = .binding → recordNonEmpty r = false) ∧
    (∀ g1 acts u, onRecordFound g tok r = some (g1, acts) →
      GenAction.setConferenceAddress u ∈ acts → g.state = .binding) := by
  obtain ⟨gs, gu⟩ := g
  cases gs with
  | fetching =>
    by_cases hr : recordNonEmpty r = true
    · refine ⟨?_, ?_, ?_, ?_⟩
      · intro _ _
        simp [onRecordFound, hr]
      · intro _ hf
        exact absurd hf (by simp [hr])
      · intro g1 acts h1 _ hb
        simp only [onRecordFound, if_pos hr] at h1
        injection h1 with h1a
        injection h1a with h2 h3
        rw [← h2] at hb
        simp at hb
      · intro g1 acts u h1 hmem
        simp only [onRecordFound, if_pos hr] at h1
        injection h1 with h1a
        injection h1a with h2 h3
        rw [← h3] at hmem
        simp at hmem
    · refine ⟨?_, ?_, ?_, ?_⟩
      · intro _ ht
        exact absurd ht hr
      · intro _ _
        simp [onRecordFound, hr]
      · intro g1 acts h1 _ hb
        cases hb2 : recordNonEmpty r with
        | false => rfl
        | true => exact absurd hb2 hr
      · intro g1 acts u h1 hmem
        simp only [onRecordFound, if_neg hr] at h1
        injection h1 with h1a
        injection h1a with h2 h3
        rw [← h3] at hmem
        simp at hmem
  | binding =>
    refine ⟨?_, ?_, ?_, ?_⟩
    · intro hf
      simp at hf
    · intro hf
      simp at hf
    · intro g1 acts h1 hf
      simp at hf
    · intro g1 acts u h1 hmem
      rfl

/-- Witness for C4: a collision (non-empty record) in Fetching re-randomises
and refetches. -/
theorem onRecordFound_fetch_bind_discipline_w :
    ((Generator.state ⟨AllocState.fetching, "u"⟩ = AllocState.fetching) ∧
      recordNonEmpty (some recW) = true) ∧
    onRecordFound ⟨AllocState.fetching, "u"⟩ "tok0" (some recW) =
      some (⟨AllocState.fetching, changeAddressUser "tok0"⟩, [GenAction.fetch]) :=
  ⟨⟨rfl, by decide⟩,
    (onRecordFound_fetch_bind_discipline ⟨AllocState.fetching, "u"⟩ "tok0"
      (some recW)).1 rfl (by decide)⟩

/-- C5: `onError`, delivered in whichever phase, emits exactly one action —
nullifying the chat room's conference address — and publishes nothing
else. -/
theorem onError_nullifies_address (g : Generator) :
    (onError g).1 = g ∧ (onError g).2 = [GenAction.setConferenceAddress none] :=
  ⟨rfl, rfl⟩

end Conf

namespace Logs

/-- C9: both protocol comparisons in `AuthLog::setOrigin` test `"UDP"`, so
the `"sips"` branch is unreachable: whenever `setOrigin` produces an origin,
its scheme is `"sip"`. -/
theorem setOrigin_scheme_always_sip (via : Via) (o : Origin)
    (h : setOrigin via = some o) : o.scheme = "sip" := by
  cases h1 : afterSlash via.v_protocol with
  | none => simp [setOrigin, h1] at h
  | some p1 =>
    cases h2 : afterSlash p1 with
    | none => simp [setOrigin, h1, h2] at h
    | some protocol =>
      simp only [setOrigin, h1, h2] at h
      by_cases hu : strcasecmpEq protocol "UDP" = true
      · rw [if_pos hu] at h
        injection h with h3
        rw [← h3]
      · rw [if_neg hu, if_neg hu] at h
        injection h with h3
        rw [← h3]

/-- Witness for C9 at a TLS via header: the produced origin has scheme
`"sip"`, not `"sips"`. -/
theorem setOrigin_scheme_always_sip_w :
    setOrigin viaW = some ⟨"sip", "host.example.org", some "5061", some "TLS"⟩ ∧
    Origin.scheme ⟨"sip", "host.example.org", some "5061", some "TLS"⟩ = "sip" :=
  ⟨by decide, setOrigin_scheme_always_sip viaW _ (by decide)⟩

end Logs

end Flexisip
